import Mathlib

/-!
Verification of the l10n translation-workflow core: a shallow embedding of
`l10n/models.py`, `l10n/services/qa.py` and the permission / mutation logic of
`l10n/admin.py`.  Python strings are modelled as `List Char`; nullable text
fields as `Option Str`; the relational store as explicit lists passed through
the save functions.
-/

/-- Python strings, modelled as lists of characters. -/
abbrev Str := List Char

/-- The whitespace characters recognised by `str.strip()` / regex `\s`
(ASCII subset, which is all the repository's texts use). -/
def pyIsSpace (c : Char) : Bool :=
  c = ' ' || c = '\t' || c = '\n' || c = '\r' || c = '\x0b' || c = '\x0c'

/-- Remove leading whitespace (left half of `str.strip()`). -/
def pyStripLeft (s : Str) : Str := s.dropWhile pyIsSpace

/-- Python `str.strip()`: remove leading and trailing whitespace. -/
def pyStrip (s : Str) : Str :=
  ((pyStripLeft s).reverse.dropWhile pyIsSpace).reverse

/-- Python `x or ""` on an optional string. -/
def optStr (o : Option Str) : Str := o.getD []

/-- Conversion characters accepted by the placeholder patterns: `[sdfox]`. -/
def isConvChar (c : Char) : Bool :=
  c = 's' || c = 'd' || c = 'f' || c = 'o' || c = 'x'

/-- First character of a `%(name)s` identifier: `[A-Za-z_]`. -/
def isIdentStart (c : Char) : Bool := c.isAlpha || c = '_'

/-- Continuation character of a `%(name)s` identifier: `[A-Za-z0-9_]`. -/
def isIdentCont (c : Char) : Bool := c.isAlphanum || c = '_'

/-- Regex `\w` (ASCII), used for the `\b` boundary after a tag name. -/
def isWordChar (c : Char) : Bool := c.isAlphanum || c = '_'

/-- Attempt to match `%(?!%)\([A-Za-z_][A-Za-z0-9_]*\)[sdfox]` at the head of
the input, returning the matched token and the remainder. -/
def tryPct1 : Str → Option (Str × Str)
  | '%' :: '(' :: c :: t =>
    if isIdentStart c then
      let body := t.takeWhile isIdentCont
      match t.dropWhile isIdentCont with
      | ')' :: cv :: r =>
        if isConvChar cv then some ('%' :: '(' :: c :: (body ++ [')', cv]), r) else none
      | _ => none
    else none
  | _ => none

/-- Attempt to match `%(?!%)\d+\$[sdfox]` at the head of the input. -/
def tryPct2 : Str → Option (Str × Str)
  | '%' :: c :: t =>
    if c.isDigit then
      let ds := t.takeWhile Char.isDigit
      match t.dropWhile Char.isDigit with
      | '$' :: cv :: r =>
        if isConvChar cv then some ('%' :: c :: (ds ++ ['$', cv]), r) else none
      | _ => none
    else none
  | _ => none

/-- Attempt to match `%(?!%)[sdfox]` at the head of the input; the negative
lookahead only inspects the single character after the percent sign. -/
def tryPct3 : Str → Option (Str × Str)
  | '%' :: c :: r =>
    if c != '%' && isConvChar c then some (['%', c], r) else none
  | _ => none

/-- Attempt to match a curly placeholder `\{[^{}]+\}` at the head of the input. -/
def tryCurly : Str → Option (Str × Str)
  | '{' :: t =>
    let body := t.takeWhile (fun c => c != '{' && c != '}')
    match t.dropWhile (fun c => c != '{' && c != '}') with
    | '}' :: r => if body = [] then none else some ('{' :: (body ++ ['}']), r)
    | _ => none
  | _ => none

/-- `re.findall` driver: scan left to right, emit non-overlapping matches,
advance one character on failure.  Every matcher used below consumes at least
one character on success, so `fuel = length` suffices. -/
def reScan {α : Type} (m : Str → Option (α × Str)) : Nat → Str → List α
  | 0, _ => []
  | _ + 1, [] => []
  | fuel + 1, c :: cs =>
    match m (c :: cs) with
    | some (tok, r) => tok :: reScan m fuel r
    | none => reScan m fuel cs

/-- All matches of a single pattern in a text (`re.findall`). -/
def findAll {α : Type} (m : Str → Option (α × Str)) (s : Str) : List α :=
  reScan m s.length s

/-- `extract_placeholders` from `l10n/services/qa.py`: the set (here a
duplicate-free list) of placeholder tokens found by the four patterns. -/
def extract_placeholders (text : Option Str) : List Str :=
  match text with
  | none => []
  | some s =>
    if s = [] then []
    else ((findAll tryPct1 s ++ findAll tryPct2 s ++ findAll tryPct3 s)
          ++ findAll tryCurly s).dedup

/-- Code-point lexicographic order on strings (Python string `<`). -/
def strLt : Str → Str → Bool
  | [], [] => false
  | [], _ :: _ => true
  | _ :: _, [] => false
  | a :: as, b :: bs =>
    if a.toNat < b.toNat then true
    else if b.toNat < a.toNat then false
    else strLt as bs

/-- Insert into an ascending list (helper for `sorted(...)`). -/
def insertSorted (x : Str) : List Str → List Str
  | [] => [x]
  | y :: ys => if strLt x y then x :: y :: ys else y :: insertSorted x ys

/-- Python `sorted` on a list of strings. -/
def sortStrs (l : List Str) : List Str := l.foldr insertSorted []

/-- The allow-list of inline tags in `extract_html_tags`. -/
def tagNames : List Str :=
  ["b".toList, "i".toList, "strong".toList, "em".toList, "span".toList, "a".toList]

/-- Case-insensitive match of a (lowercase) tag-name pattern against a prefix
of the input, returning the remainder. -/
def ciMatchTag : Str → Str → Option Str
  | [], s => some s
  | _ :: _, [] => none
  | p :: ps, c :: cs => if c.toLower = p then ciMatchTag ps cs else none

/-- The `\b` boundary after a tag name: next character absent or not `\w`. -/
def tagBoundaryOk : Str → Bool
  | [] => true
  | c :: _ => !(isWordChar c)

/-- Regex alternation `(b|i|strong|em|span|a)\b` tried in pattern order. -/
def matchTagAlt (s : Str) : List Str → Option (Str × Str)
  | [] => none
  | t :: ts =>
    match ciMatchTag t s with
    | some r => if tagBoundaryOk r then some (t, r) else matchTagAlt s ts
    | none => matchTagAlt s ts

/-- Attempt to match `<\s*(/)?\s*(b|i|strong|em|span|a)\b[^>]*>` at the head of
the input, returning the lowercased tag name, whether it is a closing tag, and
the remainder. -/
def tryHtmlTag : Str → Option ((Str × Bool) × Str)
  | '<' :: t =>
    let t1 := t.dropWhile pyIsSpace
    let (isClose, t2) :=
      match t1 with
      | '/' :: r => (true, r)
      | _ => (false, t1)
    let t3 := t2.dropWhile pyIsSpace
    match matchTagAlt t3 tagNames with
    | some (tag, r) =>
      match r.dropWhile (fun c => c != '>') with
      | '>' :: rest => some ((tag, isClose), rest)
      | _ => none
    | none => none
  | _ => none

/-- The counter key of one tag occurrence: `f"{tag}_{x7bclose or openx7d}"`. -/
def tagKey (tag : Str) (isClose : Bool) : Str :=
  tag ++ (if isClose then "_close".toList else "_open".toList)

/-- `extract_html_tags` from `l10n/services/qa.py`, modelled as the list of
counter keys in scan order; a key's count is its multiplicity in the list. -/
def extract_html_tags (text : Option Str) : List Str :=
  match text with
  | none => []
  | some s =>
    if s = [] then []
    else (findAll tryHtmlTag s).map (fun p => tagKey p.1 p.2)

/-- One QA flag: the `code` plus its `details` payload, as built by
`compute_qa_flags`. -/
inductive QAFlag where
  | missing_placeholder (missing : List Str)
  | extra_placeholder (extra : List Str)
  | unbalanced_braces (opn cls : Nat)
  | html_tag_mismatch (mismatches : List (Str × Nat × Nat))
  | empty_translation
deriving DecidableEq

/-- The `code` field of a flag dictionary. -/
def QAFlag.code : QAFlag → String
  | .missing_placeholder _ => "missing_placeholder"
  | .extra_placeholder _ => "extra_placeholder"
  | .unbalanced_braces _ _ => "unbalanced_braces"
  | .html_tag_mismatch _ => "html_tag_mismatch"
  | .empty_translation => "empty_translation"

/-- `compute_qa_flags` from `l10n/services/qa.py`: the ordered flag list for a
(source, target) pair. -/
def compute_qa_flags (source target : Option Str) : List QAFlag :=
  let src := optStr source
  let tgt := optStr target
  let srcPh := extract_placeholders (some src)
  let tgtPh := extract_placeholders (some tgt)
  let missing := sortStrs (srcPh.filter (fun x => !(tgtPh.contains x)))
  let extraToks := sortStrs (tgtPh.filter (fun x => !(srcPh.contains x)))
  let srcTags := extract_html_tags (some src)
  let tgtTags := extract_html_tags (some tgt)
  let allKeys := sortStrs ((srcTags ++ tgtTags).dedup)
  let mismatches := allKeys.filterMap (fun k =>
    if srcTags.count k ≠ tgtTags.count k then some (k, srcTags.count k, tgtTags.count k)
    else none)
  (if missing ≠ [] then [QAFlag.missing_placeholder missing] else [])
  ++ (if extraToks ≠ [] then [QAFlag.extra_placeholder extraToks] else [])
  ++ (if tgt.count '{' ≠ tgt.count '}' then
        [QAFlag.unbalanced_braces (tgt.count '{') (tgt.count '}')] else [])
  ++ (if mismatches ≠ [] then [QAFlag.html_tag_mismatch mismatches] else [])
  ++ (if pyStrip src ≠ [] ∧ pyStrip tgt = [] then [QAFlag.empty_translation] else [])

/-- Translation workflow states (`Translation.TranslationStatus`). -/
inductive TranslationStatus where
  | APPROVED
  | STALE
  | IN_REVIEW
  | MACHINE_DRAFT
  | REJECTED
  | FLAGGED
deriving DecidableEq

/-- Translation provenance values (`Translation.TranslationProvenance`). -/
inductive TranslationProvenance where
  | IMPORTED
  | HUMAN
  | LLM
  | MT
deriving DecidableEq

/-- A `StringUnit` row: one source string keyed by (location, message_id). -/
structure StringUnit where
  location : Str
  message_id : Str
  source_text : Str
  source_updated_on : Str
  source_hash : Str
deriving DecidableEq

/-- A `Translation` row.  The `string_unit` foreign key is embedded as the
related row (it is non-nullable); `locale` and `reviewer` are kept as ids. -/
structure Translation where
  string_unit : StringUnit
  locale : Nat
  approved_text : Option Str
  reviewer_text : Option Str
  machine_draft : Option Str
  qa_flags : List QAFlag
  status : TranslationStatus
  provenance : TranslationProvenance
  source_hash_at_last_update : Str
  reviewer : Option Nat
deriving DecidableEq

/-- Modelled from the spec: `hashlib.sha256(...).hexdigest()` and
`unicodedata.normalize("NFC", ...)` are Python standard-library calls outside
`src/`.  `nfc` is an arbitrary function satisfying the Unicode normalization
contract the hash-invariance property rests on: re-normalizing an
edge-whitespace-stripped NFC string leaves it unchanged.  `sha256hex` is an
arbitrary digest function (no property of it is needed). -/
structure HashModel where
  nfc : Str → Str
  sha256hex : Str → Str
  nfc_strip : ∀ s : Str, nfc (pyStrip (nfc s)) = pyStrip (nfc s)

/-- `compute_source_hash` from `l10n/models.py`: NFC-normalize the text
(absent text as empty), strip edge whitespace, digest. -/
def compute_source_hash (H : HashModel) (text : Option Str) : Str :=
  H.sha256hex (pyStrip (H.nfc (optStr text)))

/-- The trivial instance of `HashModel` used to exercise theorems at
concrete inputs. -/
def idHashModel : HashModel :=
  { nfc := id, sha256hex := id, nfc_strip := fun _ => rfl }

/-- The staleness sweep applied to one Translation row by
`StringUnit.save`: the queryset filters `approved_text__isnull=False` and
excludes `approved_text=""`, then directly overwrites `status` with STALE
(no per-row `Translation.save`). -/
def staleSweepOne (t : Translation) : Translation :=
  if t.approved_text ≠ none ∧ t.approved_text ≠ some [] then
    { t with status := TranslationStatus.STALE }
  else t

/-- `StringUnit.save`: recompute the hash, persist, and when the previously
stored hash is truthy and differs from the new one, sweep the given
Translations of this unit.  `storedHash` is the `source_hash` currently in the
store for this pk (`none` when the row is new). -/
def stringUnitSave (H : HashModel) (su : StringUnit) (storedHash : Option Str)
    (ts : List Translation) : StringUnit × List Translation :=
  let new_hash := compute_source_hash H (some su.source_text)
  let su' := { su with source_hash := new_hash }
  match storedHash with
  | some old =>
    if old ≠ [] ∧ old ≠ new_hash then (su', ts.map staleSweepOne) else (su', ts)
  | none => (su', ts)

/-- `Translation.refresh_qa_flags`: recompute the flags from the unit's source
text and the candidate, dropping `empty_translation` unless the object being
saved has status APPROVED. -/
def refresh_qa_flags (t : Translation) (candidate : Str) : Translation :=
  let source := t.string_unit.source_text
  let flags := compute_qa_flags (some source) (some candidate)
  let flags' :=
    if t.status ≠ TranslationStatus.APPROVED then
      flags.filter (fun f => f.code != "empty_translation")
    else flags
  { t with qa_flags := flags' }

/-- The effective candidate text selected by `Translation.save`:
stripped `approved_text` if non-blank, else stripped `reviewer_text`, else
stripped `machine_draft`, else empty. -/
def effectiveCandidate (t : Translation) : Str :=
  let approved := pyStrip (optStr t.approved_text)
  let reviewerT := pyStrip (optStr t.reviewer_text)
  let machine := pyStrip (optStr t.machine_draft)
  if approved ≠ [] then approved
  else if reviewerT ≠ [] then reviewerT
  else if machine ≠ [] then machine
  else []

/-- The field name added to every restricted save. -/
def qaFlagsField : String := "qa_flags"

/-- `Translation.save`: select the candidate, refresh the QA flags, and when
the caller passed `update_fields`, widen it with `qa_flags`
(`list(set(update_fields) | x7b"qa_flags"x7d)`, modelled as a duplicate-free
list with the same membership).  Returns the persisted object and the
effective `update_fields`. -/
def translationSave (t : Translation) (update_fields : Option (List String)) :
    Translation × Option (List String) :=
  (refresh_qa_flags t (effectiveCandidate t),
   update_fields.map (fun fs => (fs ++ [qaFlagsField]).dedup))

/-- An authenticated principal as Django exposes it to the admin. -/
structure User where
  id : Nat
  is_superuser : Bool
  groups : List String
deriving DecidableEq

/-- `_is_in_group`: membership of a named auth group. -/
def isInGroup (u : User) (g : String) : Bool := u.groups.contains g

/-- `_is_superadmin`: Django superuser or member of L10N_SUPERADMIN. -/
def isSuperadmin (u : User) : Bool :=
  u.is_superuser || isInGroup u ("L10N_SUPERADMIN")

/-- `_is_reviewer`: member of L10N_REVIEWER. -/
def isReviewer (u : User) : Bool := isInGroup u ("L10N_REVIEWER")

/-- `_assigned_locale_ids`: the locale ids of a user's LocaleAssignments,
with assignments modelled as (user id, locale id) pairs. -/
def assignedLocaleIds (u : User) (asg : List (Nat × Nat)) : List Nat :=
  (asg.filter (fun p => p.1 == u.id)).map (fun p => p.2)

/-- `TranslationAdmin.get_queryset`: superadmins see everything, reviewers the
Translations of their assigned locales, everyone else nothing. -/
def getQueryset (u : User) (qs : List Translation) (asg : List (Nat × Nat)) :
    List Translation :=
  if isSuperadmin u then qs
  else if isReviewer u then
    qs.filter (fun t => decide (t.locale ∈ assignedLocaleIds u asg))
  else []

/-- The warning surfaced when a reviewer submits status APPROVED. -/
def reviewerWarning : String :=
  "Reviewers cannot set status=APPROVED. Set to IN_REVIEW instead."

/-- `TranslationAdmin.save_model`: for a reviewer-but-not-superadmin
principal, stamp `reviewer`, revert the locked fields to the stored row
(`existing`, present when `change` and the object has a pk), downgrade a
submitted APPROVED status to IN_REVIEW with a warning, then run the full
`Translation.save`.  Returns the persisted row and the warnings raised. -/
def saveModel (u : User) (obj : Translation) (existing : Option Translation)
    (change : Bool) : Translation × List String :=
  if isReviewer u && !(isSuperadmin u) then
    let obj1 := { obj with reviewer := some u.id }
    let obj2 :=
      match (if change then existing else none) with
      | some e =>
        { obj1 with
            approved_text := e.approved_text
            machine_draft := e.machine_draft
            provenance := e.provenance
            locale := e.locale
            string_unit := e.string_unit
            source_hash_at_last_update := e.source_hash_at_last_update }
      | none => obj1
    let r :=
      if obj2.status = TranslationStatus.APPROVED then
        ({ obj2 with status := TranslationStatus.IN_REVIEW }, [reviewerWarning])
      else (obj2, [])
    ((translationSave r.1 none).1, r.2)
  else ((translationSave obj none).1, [])

/-- The `update_fields` list passed by `approve_selected` to each row save. -/
def approveUpdateFields : List String :=
  ["approved_text", "status", "provenance", "source_hash_at_last_update",
   "updated_at"]

/-- The per-row mutation of `approve_selected` (before the conditional save):
copy `reviewer_text` into a blank `approved_text`, force APPROVED, force
provenance HUMAN unless IMPORTED, sync `source_hash_at_last_update`; the
second component is the `changed` flag. -/
def applyApprove (t : Translation) : Translation × Bool :=
  let copyCond :=
    pyStrip (optStr t.approved_text) = [] ∧ pyStrip (optStr t.reviewer_text) ≠ []
  let t1 := if copyCond then { t with approved_text := t.reviewer_text } else t
  let t2 :=
    if t1.status ≠ TranslationStatus.APPROVED then
      { t1 with status := TranslationStatus.APPROVED }
    else t1
  let t3 :=
    if t2.provenance ≠ TranslationProvenance.IMPORTED then
      { t2 with provenance := TranslationProvenance.HUMAN }
    else t2
  let t4 :=
    if t3.source_hash_at_last_update ≠ t3.string_unit.source_hash then
      { t3 with source_hash_at_last_update := t3.string_unit.source_hash }
    else t3
  (t4, decide (copyCond ∨ t1.status ≠ TranslationStatus.APPROVED
      ∨ t2.provenance ≠ TranslationProvenance.IMPORTED
      ∨ t3.source_hash_at_last_update ≠ t3.string_unit.source_hash))

/-- One full loop iteration of `approve_selected`: mutate, and save (with the
restricted field list) only when something changed.  The second component
records whether a write was performed. -/
def approveRow (t : Translation) : Translation × Bool :=
  let r := applyApprove t
  if r.2 then ((translationSave r.1 (some approveUpdateFields)).1, r.2)
  else (t, r.2)

/-- `approve_selected` over a queryset: denied with an error (second
component `true`) for non-superadmins, otherwise the per-row action applied
to every selected Translation. -/
def approveSelected (u : User) (qs : List Translation) :
    List Translation × Bool :=
  if isSuperadmin u then (qs.map (fun t => (approveRow t).1), false)
  else (qs, true)

/-- A concrete string unit used to exercise the theorems. -/
def exSU : StringUnit :=
  { location := "ui".toList
    message_id := "hello".toList
    source_text := "Hi".toList
    source_updated_on := []
    source_hash := "Hi".toList }

/-- A concrete translation with a non-empty approved text. -/
def exT1 : Translation :=
  { string_unit := exSU
    locale := 1
    approved_text := some ("Oui".toList)
    reviewer_text := none
    machine_draft := none
    qa_flags := []
    status := TranslationStatus.IN_REVIEW
    provenance := TranslationProvenance.HUMAN
    source_hash_at_last_update := []
    reviewer := none }

/-- A concrete translation with no approved text. -/
def exT2 : Translation :=
  { string_unit := exSU
    locale := 2
    approved_text := none
    reviewer_text := some ("Salut".toList)
    machine_draft := none
    qa_flags := []
    status := TranslationStatus.IN_REVIEW
    provenance := TranslationProvenance.LLM
    source_hash_at_last_update := []
    reviewer := none }

/-- A concrete superadmin principal. -/
def exAdmin : User := { id := 1, is_superuser := true, groups := [] }

/-- A concrete reviewer-only principal. -/
def exReviewer : User :=
  { id := 2, is_superuser := false, groups := ["L10N_REVIEWER"] }

/-- A crafted reviewer submission attempting to change locked fields. -/
def exCrafted : Translation :=
  { exT1 with
      approved_text := some ("hacked".toList)
      provenance := TranslationProvenance.LLM
      status := TranslationStatus.APPROVED }

lemma pyStrip_eq_rdrop (l : Str) :
    pyStrip l = List.rdropWhile pyIsSpace (List.dropWhile pyIsSpace l) := rfl

lemma dropWhile_rdropWhile_of_clean {l : Str}
    (hl : List.dropWhile pyIsSpace l = l) :
    List.dropWhile pyIsSpace (List.rdropWhile pyIsSpace l) =
      List.rdropWhile pyIsSpace l := by
  have hs : List.dropWhile pyIsSpace l.reverse <:+ l.reverse :=
    List.dropWhile_suffix pyIsSpace
  obtain ⟨t, ht⟩ := hs
  have hpre : List.rdropWhile pyIsSpace l ++ t.reverse = l := by
    have h2 := congrArg List.reverse ht
    simpa [List.rdropWhile] using h2
  cases hrd : List.rdropWhile pyIsSpace l with
  | nil => rfl
  | cons x xs =>
    rw [hrd] at hpre
    by_cases hpx : pyIsSpace x = true
    · exfalso
      have hl2 := hl
      rw [← hpre] at hl2
      simp only [List.cons_append] at hl2
      rw [List.dropWhile_cons_of_pos hpx] at hl2
      have hlen := congrArg List.length hl2
      have hle : (List.dropWhile pyIsSpace (xs ++ t.reverse)).length
          ≤ (xs ++ t.reverse).length :=
        (List.dropWhile_suffix pyIsSpace).sublist.length_le
      rw [hl2] at hle
      simp at hle
    · rw [List.dropWhile_cons_of_neg hpx]

lemma pyStrip_idem (s : Str) : pyStrip (pyStrip s) = pyStrip s := by
  rw [pyStrip_eq_rdrop, pyStrip_eq_rdrop]
  rw [dropWhile_rdropWhile_of_clean (List.dropWhile_idempotent pyIsSpace s)]
  exact List.rdropWhile_idempotent _ _

/-- C9: `compute_source_hash` is invariant under its own normalization: for
every hash model satisfying the Unicode NFC contract and all text T, hashing
the stripped NFC-normalization of T gives the same digest as hashing T, and
absent text hashes identically to the empty string. -/
theorem c9_hash_normalization_invariant (H : HashModel) (t : Option Str) :
    compute_source_hash H (some (pyStrip (H.nfc (optStr t))))
        = compute_source_hash H t ∧
      compute_source_hash H none = compute_source_hash H (some []) := by
  constructor
  · show H.sha256hex (pyStrip (H.nfc (pyStrip (H.nfc (optStr t)))))
        = H.sha256hex (pyStrip (H.nfc (optStr t)))
    rw [H.nfc_strip (optStr t), pyStrip_idem]
  · rfl

/-- Witness for C9 at a concrete input and the identity hash model. -/
theorem c9_witness :
    compute_source_hash idHashModel
        (some (pyStrip (idHashModel.nfc (optStr (some (" Hi ".toList))))))
      = compute_source_hash idHashModel (some (" Hi ".toList)) :=
  (c9_hash_normalization_invariant idHashModel (some (" Hi ".toList))).1

/-- C10: every `Translation.save` invoked with an explicit `update_fields`
restriction persists a field set that additionally contains `qa_flags`: the
effective set is exactly the submitted fields plus `qa_flags`. -/
theorem c10_update_fields_include_qa_flags (t : Translation) (fs : List String) :
    ∃ e, (translationSave t (some fs)).2 = some e ∧ qaFlagsField ∈ e ∧
      ∀ f, f ∈ e ↔ (f ∈ fs ∨ f = qaFlagsField) := by
  refine ⟨(fs ++ [qaFlagsField]).dedup, rfl, ?_, ?_⟩
  · simp [List.mem_dedup]
  · intro f
    simp [List.mem_dedup, List.mem_append]

/-- C7: query scoping.  A superadmin's scoped query returns every
Translation; a reviewer who is not a superadmin sees exactly the Translations
whose locale is in their assignment set; a principal with neither role sees
none — in particular a reviewer never observes a row of an unassigned
locale. -/
theorem c7_queryset_scoping (u : User) (qs : List Translation)
    (asg : List (Nat × Nat)) :
    (isSuperadmin u = true → getQueryset u qs asg = qs) ∧
      (isSuperadmin u = false → isReviewer u = true →
        ∀ t, t ∈ getQueryset u qs asg ↔
          (t ∈ qs ∧ t.locale ∈ assignedLocaleIds u asg)) ∧
      (isSuperadmin u = false → isReviewer u = false →
        getQueryset u qs asg = []) := by
  refine ⟨fun hs => ?_, fun hs hr t => ?_, fun hs hr => ?_⟩
  · simp [getQueryset, hs]
  · simp [getQueryset, hs, hr, List.mem_filter]
  · simp [getQueryset, hs, hr]

/-- Witness for C7: the concrete superadmin sees the whole table, and the
concrete reviewer (assigned only locale 2) sees exactly the locale-2 row. -/
theorem c7_witness :
    (isSuperadmin exAdmin = true ∧
        getQueryset exAdmin [exT1, exT2] [(2, 2)] = [exT1, exT2]) ∧
      (isSuperadmin exReviewer = false ∧ isReviewer exReviewer = true ∧
        (exT1 ∈ getQueryset exReviewer [exT1, exT2] [(2, 2)] ↔
          (exT1 ∈ [exT1, exT2] ∧ exT1.locale ∈ assignedLocaleIds exReviewer [(2, 2)]))) :=
  ⟨⟨by decide, (c7_queryset_scoping exAdmin [exT1, exT2] [(2, 2)]).1 (by decide)⟩,
   ⟨by decide, by decide,
    ((c7_queryset_scoping exReviewer [exT1, exT2] [(2, 2)]).2.1 (by decide)
      (by decide)) exT1⟩⟩

@[simp] lemma tsave_string_unit (t : Translation) (uf : Option (List String)) :
    (translationSave t uf).1.string_unit = t.string_unit := rfl

@[simp] lemma tsave_locale (t : Translation) (uf : Option (List String)) :
    (translationSave t uf).1.locale = t.locale := rfl

@[simp] lemma tsave_approved_text (t : Translation) (uf : Option (List String)) :
    (translationSave t uf).1.approved_text = t.approved_text := rfl

@[simp] lemma tsave_reviewer_text (t : Translation) (uf : Option (List String)) :
    (translationSave t uf).1.reviewer_text = t.reviewer_text := rfl

@[simp] lemma tsave_machine_draft (t : Translation) (uf : Option (List String)) :
    (translationSave t uf).1.machine_draft = t.machine_draft := rfl

@[simp] lemma tsave_status (t : Translation) (uf : Option (List String)) :
    (translationSave t uf).1.status = t.status := rfl

@[simp] lemma tsave_provenance (t : Translation) (uf : Option (List String)) :
    (translationSave t uf).1.provenance = t.provenance := rfl

@[simp] lemma tsave_hash (t : Translation) (uf : Option (List String)) :
    (translationSave t uf).1.source_hash_at_last_update
      = t.source_hash_at_last_update := rfl

@[simp] lemma tsave_reviewer (t : Translation) (uf : Option (List String)) :
    (translationSave t uf).1.reviewer = t.reviewer := rfl

/-- C1: staleness propagation on `StringUnit.save` of a persisted unit.  When
the freshly computed hash differs from the stored one, the dependent
Translations are exactly the stale sweep of the old rows; when it is equal,
they are untouched.  The sweep moves a row with present non-empty
`approved_text` to STALE, changing nothing else, and leaves any other row
entirely unchanged. -/
theorem c1_stale_propagation (H : HashModel) (su : StringUnit) (h : Str)
    (ts : List Translation) (hPersisted : h ≠ []) :
    (h ≠ compute_source_hash H (some su.source_text) →
        (stringUnitSave H su (some h) ts).2 = ts.map staleSweepOne) ∧
      (h = compute_source_hash H (some su.source_text) →
        (stringUnitSave H su (some h) ts).2 = ts) ∧
      (∀ t : Translation,
        (t.approved_text ≠ none ∧ t.approved_text ≠ some [] →
          staleSweepOne t = { t with status := TranslationStatus.STALE }) ∧
        (t.approved_text = none ∨ t.approved_text = some [] →
          staleSweepOne t = t)) := by
  refine ⟨fun hne => ?_, fun heq => ?_, fun t => ⟨fun hc => ?_, fun hc => ?_⟩⟩
  · simp [stringUnitSave, hPersisted, hne]
  · simp [stringUnitSave, heq]
  · simp [staleSweepOne, hc]
  · rcases hc with hc | hc <;> simp [staleSweepOne, hc]

/-- Witness for C1: with the identity hash model, a stored hash differing
from the recomputed one sweeps the two concrete rows. -/
theorem c1_witness :
    (("old".toList : Str) ≠ [] ∧
        ("old".toList : Str) ≠ compute_source_hash idHashModel (some exSU.source_text)) ∧
      (stringUnitSave idHashModel exSU (some ("old".toList)) [exT1, exT2]).2
        = [exT1, exT2].map staleSweepOne :=
  ⟨⟨by decide, by decide⟩,
   (c1_stale_propagation idHashModel exSU ("old".toList) [exT1, exT2]
      (by decide)).1 (by decide)⟩

/-- C2: a reviewer-but-not-superadmin edit of an existing Translation keeps
`approved_text`, `machine_draft`, `provenance`, `locale`, `string_unit` and
`source_hash_at_last_update` at their stored values whatever was submitted,
stamps the acting principal as `reviewer`, keeps the submitted
`reviewer_text`, and downgrades a submitted APPROVED status to IN_REVIEW with
a warning while other statuses pass through silently. -/
theorem c2_reviewer_field_clamp (u : User) (obj e : Translation)
    (hr : isReviewer u = true) (hs : isSuperadmin u = false) :
    (saveModel u obj (some e) true).1.approved_text = e.approved_text ∧
      (saveModel u obj (some e) true).1.machine_draft = e.machine_draft ∧
      (saveModel u obj (some e) true).1.provenance = e.provenance ∧
      (saveModel u obj (some e) true).1.locale = e.locale ∧
      (saveModel u obj (some e) true).1.string_unit = e.string_unit ∧
      (saveModel u obj (some e) true).1.source_hash_at_last_update
        = e.source_hash_at_last_update ∧
      (saveModel u obj (some e) true).1.reviewer = some u.id ∧
      (saveModel u obj (some e) true).1.reviewer_text = obj.reviewer_text ∧
      (saveModel u obj (some e) true).1.status
        = (if obj.status = TranslationStatus.APPROVED then
            TranslationStatus.IN_REVIEW else obj.status) ∧
      (saveModel u obj (some e) true).2
        = (if obj.status = TranslationStatus.APPROVED then [reviewerWarning]
           else []) := by
  by_cases hst : obj.status = TranslationStatus.APPROVED <;>
    simp [saveModel, hr, hs, hst]

/-- Witness for C2: the concrete reviewer submitting a crafted edit (changed
approved text and provenance, status APPROVED) against the stored row `exT1`
observes the stored approved text, the IN_REVIEW downgrade, and the
warning. -/
theorem c2_witness :
    (isReviewer exReviewer = true ∧ isSuperadmin exReviewer = false) ∧
      (saveModel exReviewer exCrafted (some exT1) true).1.approved_text
        = exT1.approved_text ∧
      (saveModel exReviewer exCrafted (some exT1) true).2
        = (if exCrafted.status = TranslationStatus.APPROVED then
            [reviewerWarning] else []) :=
  ⟨⟨by decide, by decide⟩,
   (c2_reviewer_field_clamp exReviewer exCrafted exT1 (by decide) (by decide)).1,
   (c2_reviewer_field_clamp exReviewer exCrafted exT1 (by decide)
      (by decide)).2.2.2.2.2.2.2.2.2⟩

lemma applyApprove_spec (t : Translation) :
    (applyApprove t).1.approved_text
        = (if pyStrip (optStr t.approved_text) = []
              ∧ pyStrip (optStr t.reviewer_text) ≠ []
           then t.reviewer_text else t.approved_text) ∧
      (applyApprove t).1.reviewer_text = t.reviewer_text ∧
      (applyApprove t).1.machine_draft = t.machine_draft ∧
      (applyApprove t).1.qa_flags = t.qa_flags ∧
      (applyApprove t).1.string_unit = t.string_unit ∧
      (applyApprove t).1.locale = t.locale ∧
      (applyApprove t).1.reviewer = t.reviewer ∧
      (applyApprove t).1.status = TranslationStatus.APPROVED ∧
      (applyApprove t).1.provenance
        = (if t.provenance = TranslationProvenance.IMPORTED
           then TranslationProvenance.IMPORTED
           else TranslationProvenance.HUMAN) ∧
      (applyApprove t).1.source_hash_at_last_update = t.string_unit.source_hash ∧
      ((applyApprove t).2 = true ↔
        ((pyStrip (optStr t.approved_text) = []
            ∧ pyStrip (optStr t.reviewer_text) ≠ [])
          ∨ t.status ≠ TranslationStatus.APPROVED
          ∨ t.provenance ≠ TranslationProvenance.IMPORTED
          ∨ t.source_hash_at_last_update ≠ t.string_unit.source_hash)) := by
  simp only [applyApprove]
  split_ifs <;> simp_all

lemma approveRow_fst (t : Translation) :
    (approveRow t).1.approved_text
        = (if pyStrip (optStr t.approved_text) = []
              ∧ pyStrip (optStr t.reviewer_text) ≠ []
           then t.reviewer_text else t.approved_text) ∧
      (approveRow t).1.status = TranslationStatus.APPROVED ∧
      (approveRow t).1.provenance
        = (if t.provenance = TranslationProvenance.IMPORTED
           then TranslationProvenance.IMPORTED
           else TranslationProvenance.HUMAN) ∧
      (approveRow t).1.source_hash_at_last_update = t.string_unit.source_hash ∧
      (approveRow t).1.string_unit = t.string_unit ∧
      (approveRow t).1.reviewer_text = t.reviewer_text ∧
      (approveRow t).1.machine_draft = t.machine_draft := by
  obtain ⟨ha, hrt, hmd, _, hsu, _, _, hst, hpv, hsh, hiff⟩ := applyApprove_spec t
  by_cases h : (applyApprove t).2 = true
  · simp [approveRow, h, ha, hrt, hmd, hsu, hst, hpv, hsh]
  · have h' : (applyApprove t).2 = false := by simpa using h
    have hnot := h
    rw [hiff] at hnot
    push_neg at hnot
    obtain ⟨hcpy, hst', hpv', hsh'⟩ := hnot
    have hcpy' : ¬ (pyStrip (optStr t.approved_text) = []
        ∧ pyStrip (optStr t.reviewer_text) ≠ []) := by
      rintro ⟨h1, h2⟩
      exact h2 (hcpy h1)
    have hrow : approveRow t = (t, (applyApprove t).2) := by
      simp [approveRow, h']
    rw [hrow]
    exact ⟨by rw [if_neg hcpy'], hst',
      by rw [if_pos hpv']; exact hpv', hsh', rfl, rfl, rfl⟩

/-- C3: the bulk approve action run by a superadmin applies the per-row rule
to every selected Translation with no denial; each resulting row has
`reviewer_text` copied into a blank `approved_text` (when `reviewer_text` is
non-blank), status APPROVED, provenance HUMAN unless it was IMPORTED (which
is preserved), and `source_hash_at_last_update` equal to the unit's current
`source_hash`. -/
theorem c3_approve_action_effect (u : User) (qs : List Translation)
    (hu : isSuperadmin u = true) :
    (approveSelected u qs).1 = qs.map (fun t => (approveRow t).1) ∧
      (approveSelected u qs).2 = false ∧
      ∀ t : Translation,
        (approveRow t).1.approved_text
            = (if pyStrip (optStr t.approved_text) = []
                  ∧ pyStrip (optStr t.reviewer_text) ≠ []
               then t.reviewer_text else t.approved_text) ∧
          (approveRow t).1.status = TranslationStatus.APPROVED ∧
          (approveRow t).1.provenance
            = (if t.provenance = TranslationProvenance.IMPORTED
               then TranslationProvenance.IMPORTED
               else TranslationProvenance.HUMAN) ∧
          (approveRow t).1.source_hash_at_last_update
            = t.string_unit.source_hash := by
  refine ⟨by simp [approveSelected, hu], by simp [approveSelected, hu], fun t => ?_⟩
  obtain ⟨h1, h2, h3, h4, _⟩ := approveRow_fst t
  exact ⟨h1, h2, h3, h4⟩

/-- Witness for C3: the superadmin approving the concrete unapproved rows
copies the reviewer text of `exT2` and approves both rows. -/
theorem c3_witness :
    isSuperadmin exAdmin = true ∧
      (approveSelected exAdmin [exT1, exT2]).1
        = [exT1, exT2].map (fun t => (approveRow t).1) ∧
      (approveRow exT2).1.approved_text = exT2.reviewer_text ∧
      (approveRow exT1).1.status = TranslationStatus.APPROVED := by
  have hmain := c3_approve_action_effect exAdmin [exT1, exT2] (by decide)
  refine ⟨by decide, hmain.1, ?_, (hmain.2.2 exT1).2.1⟩
  have h2 := (hmain.2.2 exT2).1
  rw [if_pos (by decide)] at h2
  exact h2

/-- C5: every `Translation.save` recomputes the QA flags unconditionally: the
persisted flags are `compute_qa_flags` of the unit's source text and the
effective candidate (subject only to the empty-translation gate), and the
effective candidate is the stripped `approved_text` if non-blank, else the
stripped `reviewer_text`, else the stripped `machine_draft`, else empty. -/
theorem c5_qa_recompute_on_save (t : Translation) (uf : Option (List String)) :
    (translationSave t uf).1.qa_flags
        = (if t.status ≠ TranslationStatus.APPROVED then
            (compute_qa_flags (some t.string_unit.source_text)
              (some (effectiveCandidate t))).filter
                (fun f => f.code != "empty_translation")
           else
            compute_qa_flags (some t.string_unit.source_text)
              (some (effectiveCandidate t))) ∧
      effectiveCandidate t
        = (if pyStrip (optStr t.approved_text) ≠ [] then
            pyStrip (optStr t.approved_text)
           else if pyStrip (optStr t.reviewer_text) ≠ [] then
            pyStrip (optStr t.reviewer_text)
           else if pyStrip (optStr t.machine_draft) ≠ [] then
            pyStrip (optStr t.machine_draft)
           else []) :=
  ⟨rfl, rfl⟩

lemma empty_translation_mem_compute (s c : Str) :
    QAFlag.empty_translation ∈ compute_qa_flags (some s) (some c) ↔
      (pyStrip s ≠ [] ∧ pyStrip c = []) := by
  simp only [compute_qa_flags, optStr, Option.getD]
  split_ifs <;> simp_all

lemma pyStrip_nil : pyStrip ([] : Str) = [] := rfl

lemma effectiveCandidate_strip (t : Translation) :
    pyStrip (effectiveCandidate t) = effectiveCandidate t := by
  simp only [effectiveCandidate]
  split_ifs <;> simp [pyStrip_idem, pyStrip_nil]

/-- C6: the persisted flags of a saved Translation contain
`empty_translation` exactly when the status being saved is APPROVED, the
source text is non-blank and the effective candidate is blank; every other
saved state suppresses the flag. -/
theorem c6_empty_translation_iff (t : Translation) (uf : Option (List String)) :
    QAFlag.empty_translation ∈ (translationSave t uf).1.qa_flags ↔
      (t.status = TranslationStatus.APPROVED
        ∧ pyStrip t.string_unit.source_text ≠ []
        ∧ effectiveCandidate t = []) := by
  have hqa : (translationSave t uf).1.qa_flags
      = (if t.status ≠ TranslationStatus.APPROVED then
          (compute_qa_flags (some t.string_unit.source_text)
            (some (effectiveCandidate t))).filter
              (fun f => f.code != "empty_translation")
         else
          compute_qa_flags (some t.string_unit.source_text)
            (some (effectiveCandidate t))) := rfl
  rw [hqa]
  by_cases hst : t.status = TranslationStatus.APPROVED
  · rw [if_neg (by simpa using hst), empty_translation_mem_compute,
      effectiveCandidate_strip]
    simp [hst]
  · rw [if_pos hst]
    simp [List.mem_filter, QAFlag.code, hst]

/-- C8 counterexample: the text `%%s` does yield a placeholder token — the
second percent of the `%%` pair starts a `%s` match, so the escape sequence
is not fully ignored as the claim states. -/
theorem c8_counterexample :
    ("%s".toList) ∈ extract_placeholders (some ("%%s".toList)) := by decide

/-- C8 (amended): the negative lookahead only protects the first percent of a
`%%` pair — no placeholder pattern can match starting at a percent that is
immediately followed by another percent — but the second percent of the pair
can itself start a token when followed by matchable material, as `%%s`
(yielding `%s`) shows. -/
theorem c8_double_percent_lookahead :
    (∀ r : Str, tryPct1 ('%' :: '%' :: r) = none
      ∧ tryPct2 ('%' :: '%' :: r) = none
      ∧ tryPct3 ('%' :: '%' :: r) = none) ∧
      extract_placeholders (some ("%%s".toList)) = [("%s".toList)] :=
  ⟨fun _ => ⟨rfl, rfl, rfl⟩, by decide⟩

lemma Translation_eta_provenance (x : Translation) :
    ({ x with provenance := x.provenance } : Translation) = x := by
  cases x
  rfl

lemma tsave_fst_idem (y : Translation) (uf uf' : Option (List String)) :
    (translationSave ((translationSave y uf).1) uf').1
      = (translationSave y uf).1 := rfl

lemma applyApprove_fst_fix (x : Translation)
    (hst : x.status = TranslationStatus.APPROVED)
    (hcpy : ¬ (pyStrip (optStr x.approved_text) = []
      ∧ pyStrip (optStr x.reviewer_text) ≠ []))
    (hsh : x.source_hash_at_last_update = x.string_unit.source_hash)
    (hpv : x.provenance = TranslationProvenance.HUMAN
      ∨ x.provenance = TranslationProvenance.IMPORTED) :
    (applyApprove x).1 = x := by
  obtain ⟨su, loc, ta, tr, tm, qa, st, pv, sh, rv⟩ := x
  simp only at hst hsh hcpy hpv
  subst hst
  subst hsh
  rcases hpv with hpv | hpv <;> subst hpv <;> simp [applyApprove, hcpy]

/-- C4 counterexample: re-applying the approve action immediately after a
first application does perform a second write — on the concrete row (already
APPROVED, provenance HUMAN, hash synced after the first application) the
second pass still reports `changed`, because the provenance branch sets the
flag without checking the prior value. -/
theorem c4_counterexample :
    (approveRow ((approveRow exT1).1)).2 = true := by decide

/-- C4 (amended): the approve action is idempotent in values — a second
application immediately after a first leaves every field identical — but it
performs a second write exactly when the row's provenance after the first
application is not IMPORTED (the provenance branch re-assigns HUMAN and marks
the row changed even when it is already HUMAN); only IMPORTED rows escape the
second write. -/
theorem c4_second_apply_writes_again (t : Translation) :
    (approveRow ((approveRow t).1)).1 = (approveRow t).1 ∧
      ((approveRow ((approveRow t).1)).2 = true ↔
        (approveRow t).1.provenance ≠ TranslationProvenance.IMPORTED) := by
  obtain ⟨ha, hrt, hmd, hqa, hsu, hloc, hrv, hst, hpv, hsh, hiff⟩ :=
    applyApprove_spec t
  by_cases h : (applyApprove t).2 = true
  · have hrow : approveRow t
        = ((translationSave (applyApprove t).1 (some approveUpdateFields)).1,
           true) := by
      simp [approveRow, h]
    set y := (applyApprove t).1 with hy
    set p1 := (translationSave y (some approveUpdateFields)).1 with hp1def
    have hp1st : p1.status = TranslationStatus.APPROVED := by
      rw [hp1def, tsave_status]; exact hst
    have hp1pv : p1.provenance
        = (if t.provenance = TranslationProvenance.IMPORTED
           then TranslationProvenance.IMPORTED
           else TranslationProvenance.HUMAN) := by
      rw [hp1def, tsave_provenance]; exact hpv
    have hp1sh : p1.source_hash_at_last_update = p1.string_unit.source_hash := by
      rw [hp1def, tsave_hash, tsave_string_unit, hsh, hsu]
    have hp1cpy : ¬ (pyStrip (optStr p1.approved_text) = []
        ∧ pyStrip (optStr p1.reviewer_text) ≠ []) := by
      rw [hp1def, tsave_approved_text, tsave_reviewer_text, ha, hrt]
      by_cases hc : pyStrip (optStr t.approved_text) = []
          ∧ pyStrip (optStr t.reviewer_text) ≠ []
      · rw [if_pos hc]
        rintro ⟨h1, h2⟩
        exact h2 h1
      · rw [if_neg hc]
        exact hc
    have hp1pvcases : p1.provenance = TranslationProvenance.HUMAN
        ∨ p1.provenance = TranslationProvenance.IMPORTED := by
      rw [hp1pv]
      by_cases hq : t.provenance = TranslationProvenance.IMPORTED
      · right; rw [if_pos hq]
      · left; rw [if_neg hq]
    obtain ⟨_, _, _, _, _, _, _, _, _, _, hiff2⟩ := applyApprove_spec p1
    have hch2 : (applyApprove p1).2 = true ↔
        p1.provenance ≠ TranslationProvenance.IMPORTED := by
      rw [hiff2]
      constructor
      · rintro (hc | hc | hc | hc)
        · exact absurd hc hp1cpy
        · exact absurd hp1st hc
        · exact hc
        · exact absurd hp1sh hc
      · intro hc
        exact Or.inr (Or.inr (Or.inl hc))
    rw [hrow]
    show (approveRow p1).1 = p1 ∧
      ((approveRow p1).2 = true ↔ p1.provenance ≠ TranslationProvenance.IMPORTED)
    by_cases hq : p1.provenance = TranslationProvenance.IMPORTED
    · have h2f : (applyApprove p1).2 = false := by
        have hn : ¬ (applyApprove p1).2 = true := by
          rw [hch2]; simp [hq]
        simpa using hn
      have hrow2 : approveRow p1 = (p1, false) := by simp [approveRow, h2f]
      rw [hrow2]
      simp [hq]
    · have h2t : (applyApprove p1).2 = true := by rw [hch2]; exact hq
      have hrow2 : approveRow p1
          = ((translationSave (applyApprove p1).1 (some approveUpdateFields)).1,
             true) := by
        simp [approveRow, h2t]
      have hfix : (applyApprove p1).1 = p1 :=
        applyApprove_fst_fix p1 hp1st hp1cpy hp1sh hp1pvcases
      rw [hrow2, hfix]
      constructor
      · rw [hp1def]
        exact tsave_fst_idem y (some approveUpdateFields) (some approveUpdateFields)
      · simp [hq]
  · have h' : (applyApprove t).2 = false := by simpa using h
    have hrow : approveRow t = (t, false) := by simp [approveRow, h']
    have hnot := h
    rw [hiff] at hnot
    push_neg at hnot
    obtain ⟨hcpy, hst', hpv', hsh'⟩ := hnot
    constructor <;> simp [hrow, hpv']
